import Mathlib

/-!
Verification of the application-wizard UI subsystem:
the wizard container `AkApplicationWizardMain` (state merging and
step enablement) and the `WizardStep` base class (button dispatch,
navigation events, sidebar rendering, render gating, connection-time
naming contract), from
`web/src/admin/applications/wizard/ak-application-wizard-main.ts`.

JavaScript objects are modelled as association lists of string keys and
JSON-like values; JS `Set<string>` as a duplicate-free list in insertion
order; `undefined`/`null`-able strings as `Option String`; code that can
`throw` as `Except String`.
-/

/-- A JSON-like runtime value: the shape of the data stored in the wizard
state (strings, numbers, nested objects, arrays). Objects are association
lists in property insertion order. -/
inductive JsonValue where
  | str (s : String)
  | num (n : Int)
  | obj (fields : List (String × JsonValue))
  | arr (elems : List JsonValue)

/-- First-match key lookup in an object's property list (JS property
access `o[k]`, `none` for an absent property). -/
def lookupKey (k : String) : List (String × JsonValue) → Option JsonValue
  | [] => none
  | (k2, v) :: rest => if k2 = k then some v else lookupKey k rest

/-- JS object spread `{...a, ...b}`: the keys of `a` in order, each
overridden by `b`'s value when `b` has the key, followed by the keys of
`b` that are not in `a`. This is the shallow merge in `handleUpdate`:
`this.wizard = { ...this.wizard, ...update }`. -/
def spread (a b : List (String × JsonValue)) : List (String × JsonValue) :=
  a.map (fun p => (p.1, (lookupKey p.1 b).getD p.2)) ++
    b.filter (fun p => (lookupKey p.1 a).isNone)

/-- A value that may be a single item or an array of items, as accepted by
`status.enable` / `status.disable`. -/
inductive OneOrMany (α : Type) where
  | one (x : α)
  | many (xs : List α)

/-- Source `asArr` from the source: `Array.isArray(v) ? v : [v]`. -/
def asArr {α : Type} : OneOrMany α → List α
  | .one x => [x]
  | .many xs => xs

/-- Modelled from the spec: the `status` payload of a `WizardUpdateEvent`
(`status?{enable?, disable?}`, each a single identifier or a list); the
defining `types.ts` is not part of the sources. -/
structure WizardStatusUpdate where
  enable : Option (OneOrMany String)
  disable : Option (OneOrMany String)

/-- Modelled from the spec: the content of a `WizardUpdateEvent`
(`{update?, status?}`); `update` is a partial wizard-state object. The
defining `types.ts` / `events.ts` are not part of the sources. -/
structure UpdateEventContent where
  update : Option (List (String × JsonValue))
  status : Option WizardStatusUpdate

/-- Source `freshWizardState` from the source: the initial wizard state object. -/
def freshWizardState : List (String × JsonValue) :=
  [("providerModel", .str ""),
   ("currentBinding", .num (-1)),
   ("app", .obj []),
   ("provider", .obj []),
   ("errors", .obj []),
   ("bindings", .arr [])]

/-- The container's reactive state: the `wizard` state object and the
`enabled` step set (a JS `Set<string>`, modelled as its insertion-order,
duplicate-free key list). -/
structure ContainerState where
  wizard : List (String × JsonValue)
  enabled : List String

/-- Auxiliary for `jsSetFrom`: keep the first occurrence of each element,
given the elements already seen. -/
def jsSetFromAux (seen : List String) : List String → List String
  | [] => []
  | x :: xs =>
      if x ∈ seen then jsSetFromAux seen xs
      else x :: jsSetFromAux (x :: seen) xs

/-- Source `new Set(l)` followed by `Array.from(set.keys())`: deduplicate a list
keeping the first occurrence of each element, in order. -/
def jsSetFrom (l : List String) : List String := jsSetFromAux [] l

/-- The container's initial state: `freshWizardState` and
`new Set(["application"])`. -/
def initialContainerState : ContainerState :=
  { wizard := freshWizardState, enabled := jsSetFrom ["application"] }

/-- Source `handleUpdate` from the source. The returned `Bool` records that the
event's propagation was stopped (`ev.stopPropagation()`, unconditional).
If `update` is present the wizard state becomes `{...this.wizard, ...update}`;
if `status` is present the enabled set becomes
`new Set([...Array.from(this.enabled.keys()).filter(k => !disable.includes(k)), ...enable])`
with `enable = asArr(status.enable ?? [])` and
`disable = asArr(status.disable ?? [])`. -/
def handleUpdate (st : ContainerState) (content : UpdateEventContent) :
    ContainerState × Bool :=
  let st1 : ContainerState :=
    match content.update with
    | some u => { st with wizard := spread st.wizard u }
    | none => st
  let st2 : ContainerState :=
    match content.status with
    | some status =>
        let enable := asArr (status.enable.getD (.many []))
        let disable := asArr (status.disable.getD (.many []))
        { st1 with
          enabled :=
            jsSetFrom ((st1.enabled.filter (fun k => !(disable.contains k))) ++ enable) }
    | none => st1
  (st2, true)

/-- A sequence of `WizardUpdateEvent`s handled in order by the container. -/
def applyUpdateEvents (st : ContainerState) (evs : List UpdateEventContent) :
    ContainerState :=
  evs.foldl (fun s c => (handleUpdate s c).1) st

mutual

/-- Modelled from the spec: "the deep-merge of all partial updates in
order" (spec §8) — nested objects are merged recursively, any other value
is overridden by the right operand. No such operation exists in the
source; it is defined only to compare against the source's shallow merge. -/
def deepMerge : JsonValue → JsonValue → JsonValue
  | .obj a, .obj b =>
      .obj (a.filter (fun p => (lookupKey p.1 b).isNone) ++ deepMergeRight a b)
  | _, y => y

/-- Modelled from the spec: the right-operand half of `deepMerge` — each
key of `b` in order, its value deep-merged with `a`'s value when `a` also
has the key. -/
def deepMergeRight (a : List (String × JsonValue)) :
    List (String × JsonValue) → List (String × JsonValue)
  | [] => []
  | (k, v) :: rest =>
      (k, match lookupKey k a with
          | some va => deepMerge va v
          | none => v) :: deepMergeRight a rest

end

/-- Modelled from the spec: deep merge at the level of top-level state
objects, for folding partial updates into the wizard state. -/
def deepMergeFields (a b : List (String × JsonValue)) :
    List (String × JsonValue) :=
  a.filter (fun p => (lookupKey p.1 b).isNone) ++ deepMergeRight a b

/-- The four button kinds, as enumerated by the source's
`BUTTON_KIND_TO_CLASS` / `BUTTON_KIND_TO_LABEL` records. -/
inductive ButtonKind where
  | next
  | back
  | close
  | cancel
deriving DecidableEq

/-- Modelled from the spec: `WizardButton` from `types.ts` (not among the
sources) — "a tagged variant: {kind, disabled?} for non-navigable buttons
(cancel/close), {kind, destination} for navigable buttons (next/back),
each optionally carrying a display label override". Modelled as a single
record of optional fields, which is exactly the runtime shape the
source's pattern matching inspects. -/
structure WizardButton where
  kind : ButtonKind
  label : Option String
  disabled : Option Bool
  destination : Option String
deriving DecidableEq

/-- Source `BUTTON_KIND_TO_CLASS` from the source. -/
def BUTTON_KIND_TO_CLASS : ButtonKind → String
  | .next => "pf-m-primary"
  | .back => "pf-m-secondary"
  | .close => "pf-m-link"
  | .cancel => "pf-m-link"

/-- Source `BUTTON_KIND_TO_LABEL` from the source (the localized `msg(...)`
calls are modelled by their source-language strings). -/
def BUTTON_KIND_TO_LABEL : ButtonKind → String
  | .next => "Next"
  | .back => "Back"
  | .cancel => "Cancel"
  | .close => "Close"

/-- Source `getButtonLabel`: the button's label override, else the default label
for its kind. -/
def getButtonLabel (b : WizardButton) : String :=
  b.label.getD (BUTTON_KIND_TO_LABEL b.kind)

/-- Source `getButtonClasses`: `pf-c-button` plus the class for the kind. -/
def getButtonClasses (b : WizardButton) : List String :=
  ["pf-c-button", BUTTON_KIND_TO_CLASS b.kind]

/-- Source `isNavigable` from the source: the button carries a string
`destination` of positive length. -/
def isNavigable (b : WizardButton) : Bool :=
  match b.destination with
  | some d => decide (0 < d.length)
  | none => false

/-- Modelled from the spec: the events a step dispatches
(`events.ts` is not among the sources) — `WizardNavigationEvent{destination}`
and `WizardCloseEvent{}`. -/
inductive WizardEvent where
  | navigation (destination : String)
  | close
deriving DecidableEq

/-- Source `handleNavigationEvent` from the source: throw on a non-navigable
button, otherwise dispatch a `WizardNavigationEvent` with the button's
destination. (When navigable the destination is present, so the `getD`
default is never taken; it mirrors the TS type narrowing.) -/
def handleNavigationEvent (b : WizardButton) : Except String WizardEvent :=
  if !(isNavigable b) then
    Except.error "Non-navigable button sent to handleNavigationEvent"
  else
    Except.ok (WizardEvent.navigation (b.destination.getD ""))

/-- The visual data shared by all three button render paths: the class
list from `getButtonClasses` and the label from `getButtonLabel`. -/
structure ButtonView where
  classes : List String
  label : String
deriving DecidableEq

/-- The result of `renderButton`: which of the three render paths was
taken. A close-style button's click dispatches `WizardCloseEvent`; a
navigable button's click runs the navigation handler on the captured
button, recorded here. -/
inductive RenderedButton where
  | disabledView (view : ButtonView)
  | closeView (view : ButtonView)
  | navigableView (view : ButtonView) (button : WizardButton)
deriving DecidableEq

/-- Source `renderDisabledButton` from the source. -/
def renderDisabledButton (b : WizardButton) : RenderedButton :=
  .disabledView ⟨getButtonClasses b, getButtonLabel b⟩

/-- Source `renderCloseButton` from the source. -/
def renderCloseButton (b : WizardButton) : RenderedButton :=
  .closeView ⟨getButtonClasses b, getButtonLabel b⟩

/-- Source `renderNavigableButton` from the source; the click handler captures
the button itself. -/
def renderNavigableButton (b : WizardButton) : RenderedButton :=
  .navigableView ⟨getButtonClasses b, getButtonLabel b⟩ b

/-- Source `renderButton` from the source: the ordered ts-pattern dispatch —
`{disabled: true}` first, then `{kind: "close" | "cancel"}`, then
`{destination: P.string}`, otherwise a thrown contract violation. -/
def renderButton (b : WizardButton) : Except String RenderedButton :=
  if b.disabled = some true then
    Except.ok (renderDisabledButton b)
  else if b.kind = .close ∨ b.kind = .cancel then
    Except.ok (renderCloseButton b)
  else if b.destination.isSome then
    Except.ok (renderNavigableButton b)
  else
    Except.error "Button type is not close, disabled, or navigable?"

/-- Modelled from the spec: `WizardStepLabel` from `types.ts` (not among
the sources) — "{id, label, enabled, active}". -/
structure WizardStepLabel where
  id : String
  label : String
  enabled : Bool
  active : Bool
deriving DecidableEq

/-- The button element produced by `renderSidebarStep`: its class list,
the `?disabled` flag, the `target` attribute the template writes, the
`value` attribute (which the template never writes), and the label. Its
click is wired to `onSidebarNav`. -/
structure SidebarEntry where
  navLinkClasses : List String
  disabledAttr : Bool
  targetAttr : Option String
  valueAttr : Option String
  label : String
deriving DecidableEq

/-- Source `renderSidebarStep` from the source: classes
`pf-c-wizard__nav-link` (plus `pf-m-current` when active),
`?disabled=${!step.enabled}`, `target=${step.id}`, the step's label; no
`value` attribute is written. -/
def renderSidebarStep (step : WizardStepLabel) : SidebarEntry :=
  { navLinkClasses :=
      ["pf-c-wizard__nav-link"] ++ (if step.active then ["pf-m-current"] else []),
    disabledAttr := !step.enabled,
    targetAttr := some step.id,
    valueAttr := none,
    label := step.label }

/-- DOM behaviour used by `onSidebarNav`: the `value` property of an
HTMLButtonElement reflects its `value` content attribute and is the
empty string when that attribute is absent. -/
def buttonValueProperty (e : SidebarEntry) : String :=
  e.valueAttr.getD ""

/-- Source `onSidebarNav` from the source: stop propagation, read
`(ev.target as HTMLButtonElement).value` from the clicked button, and
dispatch a `WizardNavigationEvent` carrying it. -/
def onSidebarNav (clicked : SidebarEntry) : WizardEvent :=
  WizardEvent.navigation (buttonValueProperty clicked)

/-- The ambient wizard-step context: the currently active step
(`string | undefined`) and the sidebar labels. -/
structure WizardStepState where
  currentStep : Option String
  stepLabels : List WizardStepLabel
deriving DecidableEq

deriving instance DecidableEq for Except

/-- The observable fields of a `WizardStep` element. `buttons` and
`renderMainResult` stand for the overridable `buttons` getter and
`renderMain` method (subclasses override them; the base defaults are `[]`
and a thrown error). `slotAttr` is the host's `slot` attribute
(`getAttribute("slot")`, `none` for `null`). -/
structure WizardStepEl where
  enabled : Bool
  name : Option String
  slotAttr : Option String
  wizardStepState : WizardStepState
  wizardTitle : String
  wizardDescription : Option String
  canCancel : Bool
  id : String
  label : String
  hidden : Bool
  buttons : List WizardButton
  renderMainResult : Except String String
deriving DecidableEq

/-- The base-class field initializers of `WizardStep`. -/
def baseWizardStep : WizardStepEl :=
  { enabled := false,
    name := none,
    slotAttr := none,
    wizardStepState := { currentStep := none, stepLabels := [] },
    wizardTitle := "--unset--",
    wizardDescription := none,
    canCancel := false,
    id := "",
    label := "--unset--",
    hidden := false,
    buttons := [],
    renderMainResult := Except.error "This must be overridden in client classes" }

/-- JS strict equality between `currentStep : string | undefined` and
`getAttribute("slot") : string | null`: true only when both are strings
and equal (`undefined === null` is false in JS). -/
def strictEqOpt : Option String → Option String → Bool
  | some a, some b => a == b
  | _, _ => false

/-- The full body a step renders when it is the current one: cancel icon
flag, title, description, the sidebar entries, the main content and the
footer buttons. -/
structure StepBody where
  showCancelIcon : Bool
  title : String
  description : Option String
  sidebar : List SidebarEntry
  main : String
  footer : List RenderedButton
deriving DecidableEq

/-- Source `render` of `WizardStep`: the full body only when
`this.wizardStepState.currentStep === this.getAttribute("slot")`,
otherwise `nothing` (modelled `Except.ok none`). Building the body
evaluates `renderMain()` and `renderButton` on every declared button, so
a throw there aborts the render with that error. -/
def render (s : WizardStepEl) : Except String (Option StepBody) :=
  if strictEqOpt s.wizardStepState.currentStep s.slotAttr then
    match s.renderMainResult with
    | Except.error e => Except.error e
    | Except.ok m =>
        match s.buttons.mapM renderButton with
        | Except.error e => Except.error e
        | Except.ok fs =>
            Except.ok (some
              { showCancelIcon := s.canCancel,
                title := s.wizardTitle,
                description := s.wizardDescription,
                sidebar := s.wizardStepState.stepLabels.map renderSidebarStep,
                main := m,
                footer := fs })
  else Except.ok none

/-- JS truthiness of a possibly-absent string: false for
`undefined`/`null` and for the empty string. -/
def jsTruthy : Option String → Bool
  | some s => !(s == "")
  | none => false

/-- Source `connectedCallback` from the source: when `this.name` is falsy, read
the `slot` attribute; throw if that is falsy too, else assign it to
`this.name`; when `this.name` is truthy the element is unchanged. -/
def connectedCallback (s : WizardStepEl) : Except String WizardStepEl :=
  if !(jsTruthy s.name) then
    if !(jsTruthy s.slotAttr) then
      Except.error "Steps must have a unique slot attribute."
    else
      Except.ok { s with name := s.slotAttr }
  else
    Except.ok s

/-- A step whose explicit `name` differs from its `slot` attribute, with
the ambient current step equal to the name (not the slot). -/
def nameMismatchStep : WizardStepEl :=
  { baseWizardStep with
      name := some "special",
      slotAttr := some "application",
      wizardStepState := { currentStep := some "special", stepLabels := [] },
      renderMainResult := Except.ok "main content" }

/-- A concrete active step: slot and current step both "application",
overridden main content, no buttons. -/
def activeApplicationStep : WizardStepEl :=
  { baseWizardStep with
      name := some "application",
      slotAttr := some "application",
      wizardStepState := { currentStep := some "application", stepLabels := [] },
      renderMainResult := Except.ok "application form" }

/-- A step whose `name` is explicitly set to the empty string, hosted in
the "application" slot. -/
def emptyNameStep : WizardStepEl :=
  { baseWizardStep with name := some "", slotAttr := some "application" }

section ContainerLemmas

theorem mem_jsSetFromAux (a : String) :
    ∀ (l seen : List String), a ∈ jsSetFromAux seen l ↔ a ∈ l ∧ a ∉ seen := by
  intro l
  induction l with
  | nil => intro seen; simp [jsSetFromAux]
  | cons x xs ih =>
      intro seen
      by_cases hx : x ∈ seen
      · simp only [jsSetFromAux, if_pos hx, ih, List.mem_cons]
        by_cases hax : a = x
        · subst hax; simp [hx]
        · simp [hax]
      · simp only [jsSetFromAux, if_neg hx, List.mem_cons, ih]
        by_cases hax : a = x
        · subst hax; simp [hx]
        · simp [hax]

theorem mem_jsSetFrom (a : String) (l : List String) :
    a ∈ jsSetFrom l ↔ a ∈ l := by
  simp [jsSetFrom, mem_jsSetFromAux]

theorem lookupKey_append (k : String) (l1 l2 : List (String × JsonValue)) :
    lookupKey k (l1 ++ l2) =
      match lookupKey k l1 with
      | some v => some v
      | none => lookupKey k l2 := by
  induction l1 with
  | nil => simp [lookupKey]
  | cons p rest ih =>
      obtain ⟨k1, v1⟩ := p
      by_cases h : k1 = k <;> simp [lookupKey, h, ih]

theorem lookupKey_map_override (k : String) (a b : List (String × JsonValue)) :
    lookupKey k (a.map (fun p => (p.1, (lookupKey p.1 b).getD p.2))) =
      (lookupKey k a).map (fun va => (lookupKey k b).getD va) := by
  induction a with
  | nil => simp [lookupKey]
  | cons p rest ih =>
      obtain ⟨k1, v1⟩ := p
      by_cases h : k1 = k <;> simp [lookupKey, h, ih]

theorem lookupKey_filter_of_notin (k : String) (a b : List (String × JsonValue))
    (h : lookupKey k a = none) :
    lookupKey k (b.filter (fun p => (lookupKey p.1 a).isNone)) = lookupKey k b := by
  induction b with
  | nil => simp
  | cons p rest ih =>
      obtain ⟨k1, v1⟩ := p
      by_cases hk : k1 = k
      · subst hk
        simp [List.filter_cons, h, lookupKey]
      · rcases hke : (lookupKey k1 a).isNone with _ | _
        · simpa [List.filter_cons, hke, lookupKey, hk] using ih
        · simp [List.filter_cons, hke, lookupKey, hk, ih]

/-- The shallow merge `{...a, ...b}`, seen through key lookup: `b`'s value
when `b` has the key, otherwise `a`'s. -/
theorem lookupKey_spread (k : String) (a b : List (String × JsonValue)) :
    lookupKey k (spread a b) =
      match lookupKey k b with
      | some v => some v
      | none => lookupKey k a := by
  rw [spread, lookupKey_append, lookupKey_map_override]
  rcases ha : lookupKey k a with _ | va
  · simp [lookupKey_filter_of_notin k a b ha]
    rcases lookupKey k b with _ | vb <;> simp [ha]
  · rcases lookupKey k b with _ | vb <;> simp

/-- The wizard component of `handleUpdate`: the shallow merge when an
update is present, unchanged otherwise; the `status` branch never touches
it. -/
theorem handleUpdate_wizard (st : ContainerState) (c : UpdateEventContent) :
    ((handleUpdate st c).1).wizard =
      match c.update with
      | some u => spread st.wizard u
      | none => st.wizard := by
  rcases c with ⟨u, s⟩
  rcases u with _ | u <;> rcases s with _ | s <;> rfl

/-- The enabled component of `handleUpdate` when a status is present,
characterised by membership. -/
theorem handleUpdate_enabled_mem (st : ContainerState) (u : Option (List (String × JsonValue)))
    (status : WizardStatusUpdate) (k : String) :
    (k ∈ ((handleUpdate st ⟨u, some status⟩).1).enabled ↔
      (k ∈ st.enabled ∧ k ∉ asArr (status.disable.getD (.many []))) ∨
        k ∈ asArr (status.enable.getD (.many []))) := by
  rcases u with _ | u <;>
    simp [handleUpdate, mem_jsSetFrom, List.mem_filter, List.contains,
      List.elem_iff, and_comm]

end ContainerLemmas

/-- C1: when the event content carries a status, the new enabled set is
(the existing enabled set minus every identifier in `status.disable`)
union every identifier in `status.enable`, where each field may be a
single identifier or a list (normalized by `asArr`, defaulting to `[]`);
in particular an identifier in both `enable` and `disable` of the same
status is enabled afterwards, enabling an already-enabled step leaves the
set unchanged, and disabling an absent step leaves the set unchanged. -/
theorem handleUpdate_status_enabled_set (st : ContainerState)
    (u : Option (List (String × JsonValue))) (status : WizardStatusUpdate) :
    (∀ k, k ∈ ((handleUpdate st ⟨u, some status⟩).1).enabled ↔
        ((k ∈ st.enabled ∧ k ∉ asArr (status.disable.getD (.many []))) ∨
          k ∈ asArr (status.enable.getD (.many []))))
    ∧ (∀ k, k ∈ asArr (status.enable.getD (.many [])) →
        k ∈ ((handleUpdate st ⟨u, some status⟩).1).enabled)
    ∧ (∀ k, k ∈ st.enabled → ∀ k2,
        (k2 ∈ ((handleUpdate st ⟨u, some ⟨some (.one k), none⟩⟩).1).enabled ↔
          k2 ∈ st.enabled))
    ∧ (∀ k, k ∉ st.enabled → ∀ k2,
        (k2 ∈ ((handleUpdate st ⟨u, some ⟨none, some (.one k)⟩⟩).1).enabled ↔
          k2 ∈ st.enabled)) := by
  refine ⟨handleUpdate_enabled_mem st u status, ?_, ?_, ?_⟩
  · intro k hk
    exact (handleUpdate_enabled_mem st u status k).2 (Or.inr hk)
  · intro k hk k2
    rw [handleUpdate_enabled_mem st u ⟨some (.one k), none⟩ k2]
    simp only [asArr, Option.getD_some, Option.getD_none, List.not_mem_nil,
      not_false_iff, and_true, List.mem_singleton]
    constructor
    · rintro (h | rfl)
      · exact h
      · exact hk
    · exact fun h => Or.inl h
  · intro k hk k2
    rw [handleUpdate_enabled_mem st u ⟨none, some (.one k)⟩ k2]
    simp only [asArr, Option.getD_some, Option.getD_none, List.not_mem_nil,
      List.mem_singleton, or_false]
    constructor
    · rintro ⟨h, _⟩
      exact h
    · intro h
      refine ⟨h, ?_⟩
      rintro rfl
      exact hk h

/-- C1, witness: enabling and disabling "provider" in the same status
leaves it enabled. -/
theorem handleUpdate_status_enabled_set_witness :
    "provider" ∈ ((handleUpdate initialContainerState
        ⟨none, some ⟨some (.one "provider"), some (.one "provider")⟩⟩).1).enabled :=
  (handleUpdate_status_enabled_set initialContainerState none
      ⟨some (.one "provider"), some (.one "provider")⟩).2.1 "provider" (by decide)

/-- C2: when the event content carries an update, the new wizard state is
the shallow merge of the old state with the update: a top-level key
present in the update gets exactly the update's value (a nested object is
replaced whole, never deep-merged), and a key absent from the update
keeps its old value. The handler builds a new state object; in this pure
model the old state is untouched by construction. -/
theorem handleUpdate_update_shallow_merge (st : ContainerState)
    (u : List (String × JsonValue)) (status : Option WizardStatusUpdate) :
    (∀ k v, lookupKey k u = some v →
        lookupKey k ((handleUpdate st ⟨some u, status⟩).1).wizard = some v)
    ∧ (∀ k, lookupKey k u = none →
        lookupKey k ((handleUpdate st ⟨some u, status⟩).1).wizard =
          lookupKey k st.wizard) := by
  have hw : ((handleUpdate st ⟨some u, status⟩).1).wizard = spread st.wizard u := by
    rcases status with _ | s <;> rfl
  constructor
  · intro k v hv
    rw [hw, lookupKey_spread, hv]
  · intro k hv
    rw [hw, lookupKey_spread, hv]

/-- C2, witness: merging `{app: {slug: "y"}}` into a state whose `app` is
`{name: "x"}` replaces `app` entirely by `{slug: "y"}`. -/
theorem handleUpdate_update_shallow_merge_witness :
    lookupKey "app" ((handleUpdate
        { wizard := [("app", .obj [("name", .str "x")])], enabled := ["application"] }
        ⟨some [("app", .obj [("slug", .str "y")])], none⟩).1).wizard =
      some (.obj [("slug", .str "y")]) :=
  (handleUpdate_update_shallow_merge
      { wizard := [("app", .obj [("name", .str "x")])], enabled := ["application"] }
      [("app", .obj [("slug", .str "y")])] none).1
    "app" (.obj [("slug", .str "y")]) rfl

/-- C3, counterexample: for the two nested updates `{app: {name: "x"}}`
then `{app: {slug: "y"}}`, the wizard state computed by the code differs
from the deep-merge of the partial updates in order: the code keeps
`app = {slug: "y"}` while the deep merge keeps
`app = {name: "x", slug: "y"}`. -/
theorem applyUpdateEvents_ne_deepMerge_fold :
    (applyUpdateEvents initialContainerState
        [⟨some [("app", .obj [("name", .str "x")])], none⟩,
         ⟨some [("app", .obj [("slug", .str "y")])], none⟩]).wizard ≠
      [[("app", JsonValue.obj [("name", .str "x")])],
       [("app", JsonValue.obj [("slug", .str "y")])]].foldl deepMergeFields
        initialContainerState.wizard := by
  intro h
  have happ := congrArg (lookupKey "app") h
  have h1 : lookupKey "app" (applyUpdateEvents initialContainerState
      [⟨some [("app", .obj [("name", .str "x")])], none⟩,
       ⟨some [("app", .obj [("slug", .str "y")])], none⟩]).wizard =
      some (.obj [("slug", .str "y")]) := rfl
  have h2 : lookupKey "app" ([[("app", JsonValue.obj [("name", .str "x")])],
       [("app", JsonValue.obj [("slug", .str "y")])]].foldl deepMergeFields
        initialContainerState.wizard) =
      some (.obj [("name", .str "x"), ("slug", .str "y")]) := rfl
  rw [h1, h2] at happ
  simp at happ

/-- C3 (amended): after any sequence of update events the wizard state is
the left fold of the per-event SHALLOW merge over the initial state —
later top-level keys override earlier ones, and nested objects are
replaced rather than deep-merged. -/
theorem applyUpdateEvents_foldl_shallow (st : ContainerState)
    (us : List (List (String × JsonValue))) :
    (applyUpdateEvents st (us.map (fun u => ⟨some u, none⟩))).wizard =
      us.foldl spread st.wizard := by
  induction us generalizing st with
  | nil => rfl
  | cons u rest ih =>
      have h1 : (handleUpdate st ⟨some u, none⟩).1 =
          { st with wizard := spread st.wizard u } := rfl
      calc (applyUpdateEvents st ((u :: rest).map (fun u => ⟨some u, none⟩))).wizard
          = (applyUpdateEvents { st with wizard := spread st.wizard u }
              (rest.map (fun u => ⟨some u, none⟩))).wizard := by
            simp only [List.map_cons, applyUpdateEvents, List.foldl_cons, h1]
        _ = rest.foldl spread (spread st.wizard u) :=
            ih { st with wizard := spread st.wizard u }
        _ = (u :: rest).foldl spread st.wizard := rfl

/-- C10: handling an event whose content carries neither an update nor a
status leaves the wizard state and the enabled set unchanged; the
handler's only effect is stopping the event's propagation. -/
theorem handleUpdate_empty_content_frame (st : ContainerState) :
    handleUpdate st ⟨none, none⟩ = (st, true) := rfl

/-- C4, counterexample: a step whose declared name equals the ambient
current step but whose slot attribute differs renders empty content —
the render gate compares `getAttribute("slot")`, not the name. -/
theorem render_gates_on_slot_not_name :
    nameMismatchStep.name = nameMismatchStep.wizardStepState.currentStep ∧
      render nameMismatchStep = Except.ok none := by
  exact ⟨rfl, rfl⟩

theorem render_of_gate_false {s : WizardStepEl}
    (hg : strictEqOpt s.wizardStepState.currentStep s.slotAttr = false) :
    render s = Except.ok none := by
  unfold render
  rw [if_neg]
  simp [hg]

theorem render_of_gate_true {s : WizardStepEl}
    (hg : strictEqOpt s.wizardStepState.currentStep s.slotAttr = true) :
    render s =
      match s.renderMainResult with
      | Except.error e => Except.error e
      | Except.ok m =>
          match s.buttons.mapM renderButton with
          | Except.error e => Except.error e
          | Except.ok fs =>
              Except.ok (some
                { showCancelIcon := s.canCancel,
                  title := s.wizardTitle,
                  description := s.wizardDescription,
                  sidebar := s.wizardStepState.stepLabels.map renderSidebarStep,
                  main := m,
                  footer := fs }) := by
  unfold render
  rw [if_pos hg]

/-- C4 (amended): a step renders empty content exactly when the ambient
current step is not strictly equal to its `slot` attribute (strict
equality: both present and equal as strings); when they are strictly
equal and the step's main content and buttons render without throwing,
the full body is produced. -/
theorem render_full_iff_slot_matches (s : WizardStepEl) :
    (render s = Except.ok none ↔
      strictEqOpt s.wizardStepState.currentStep s.slotAttr = false)
    ∧ (∀ m fs, strictEqOpt s.wizardStepState.currentStep s.slotAttr = true →
        s.renderMainResult = Except.ok m →
        s.buttons.mapM renderButton = Except.ok fs →
        render s = Except.ok (some
          { showCancelIcon := s.canCancel,
            title := s.wizardTitle,
            description := s.wizardDescription,
            sidebar := s.wizardStepState.stepLabels.map renderSidebarStep,
            main := m,
            footer := fs })) := by
  constructor
  · rcases hg : strictEqOpt s.wizardStepState.currentStep s.slotAttr with _ | _
    · simp [render_of_gate_false hg]
    · rw [render_of_gate_true hg]
      rcases hr : s.renderMainResult with e | m
      · simp
      · rcases hb : s.buttons.mapM renderButton with e | fs
        · simp
        · simp
  · intro m fs hg hm hb
    rw [render_of_gate_true hg]
    simp only [hm, hb]

/-- C4, witness: the active step renders its full body. -/
theorem render_full_iff_slot_matches_witness :
    render activeApplicationStep = Except.ok (some
      { showCancelIcon := false,
        title := "--unset--",
        description := none,
        sidebar := [],
        main := "application form",
        footer := [] }) :=
  (render_full_iff_slot_matches activeApplicationStep).2
    "application form" [] rfl rfl rfl

/-- C5: a button with `disabled: true` is rendered through the
disabled-button path, whatever its kind and whether or not it carries a
destination — the `{disabled: true}` pattern is matched first. -/
theorem renderButton_disabled_first (b : WizardButton)
    (h : b.disabled = some true) :
    renderButton b = Except.ok (renderDisabledButton b) := by
  simp [renderButton, h]

/-- C5, witness: a disabled `next` button carrying a destination still
renders through the disabled path. -/
theorem renderButton_disabled_first_witness :
    renderButton ⟨.next, none, some true, some "provider"⟩ =
      Except.ok (renderDisabledButton ⟨.next, none, some true, some "provider"⟩) :=
  renderButton_disabled_first ⟨.next, none, some true, some "provider"⟩ rfl

/-- C6: a close/cancel button whose `disabled` is not `true` renders
through the close-style path and never through the navigable path, even
when it carries a destination. -/
theorem renderButton_close_kind (b : WizardButton)
    (hd : ¬ b.disabled = some true)
    (hk : b.kind = .close ∨ b.kind = .cancel) :
    renderButton b = Except.ok (renderCloseButton b) ∧
      ∀ v nb, renderButton b ≠ Except.ok (.navigableView v nb) := by
  have h1 : renderButton b = Except.ok (renderCloseButton b) := by
    simp [renderButton, hd, hk]
  refine ⟨h1, fun v nb hc => ?_⟩
  rw [h1] at hc
  simp [renderCloseButton] at hc

/-- C6, witness: a non-disabled cancel button carrying a destination
renders as a close-style control. -/
theorem renderButton_close_kind_witness :
    renderButton ⟨.cancel, none, none, some "application"⟩ =
      Except.ok (renderCloseButton ⟨.cancel, none, none, some "application"⟩) :=
  (renderButton_close_kind ⟨.cancel, none, none, some "application"⟩
      (by decide) (Or.inr rfl)).1

/-- C7: `handleNavigationEvent` throws exactly when the button is
non-navigable — navigable meaning it carries a destination string of
positive length — and on a navigable button it dispatches a navigation
event carrying exactly the button's destination. -/
theorem handleNavigationEvent_spec (b : WizardButton) :
    ((∃ e, handleNavigationEvent b = Except.error e) ↔
      ¬ (∃ d, b.destination = some d ∧ 0 < d.length))
    ∧ (∀ d, b.destination = some d → 0 < d.length →
        handleNavigationEvent b = Except.ok (WizardEvent.navigation d)) := by
  have hiff : isNavigable b = true ↔ ∃ d, b.destination = some d ∧ 0 < d.length := by
    rcases hd : b.destination with _ | d
    · simp [isNavigable, hd]
    · simp [isNavigable, hd]
  constructor
  · rcases hnav : isNavigable b with _ | _
    · simp only [handleNavigationEvent, hnav, Bool.not_false, if_true]
      constructor
      · intro _
        rw [← hiff, hnav]
        simp
      · intro _
        exact ⟨"Non-navigable button sent to handleNavigationEvent", rfl⟩
    · simp only [handleNavigationEvent, hnav, Bool.not_true, if_false]
      constructor
      · rintro ⟨e, he⟩
        cases he
      · intro hno
        exact absurd (hiff.mp hnav) hno
  · intro d hd hlen
    have hnav : isNavigable b = true := by simp [isNavigable, hd, hlen]
    simp [handleNavigationEvent, hnav, hd]

/-- C7, witness: a `next` button with destination "provider-choice"
dispatches a navigation event carrying exactly "provider-choice". -/
theorem handleNavigationEvent_spec_witness :
    handleNavigationEvent ⟨.next, none, none, some "provider-choice"⟩ =
      Except.ok (WizardEvent.navigation "provider-choice") :=
  (handleNavigationEvent_spec ⟨.next, none, none, some "provider-choice"⟩).2
    "provider-choice" rfl (by decide)

/-- C8: evaluating the code at the failing input — the sidebar entry
rendered for the enabled step `{id: "provider"}` carries the id only in
its `target` attribute, and clicking it dispatches a navigation event
whose destination is the empty string (the unset `value` property), not
"provider" as specified. -/
theorem sidebar_click_dispatches_empty_destination :
    onSidebarNav (renderSidebarStep ⟨"provider", "Provider", true, false⟩) =
      WizardEvent.navigation "" ∧
    (renderSidebarStep ⟨"provider", "Provider", true, false⟩).targetAttr =
      some "provider" ∧
    WizardEvent.navigation "" ≠ WizardEvent.navigation "provider" :=
  ⟨rfl, rfl, by decide⟩

/-- C9, counterexample: a step with an explicitly set name does not
always keep it — the connect-time check tests JS truthiness, so an
explicit empty-string name is overwritten by the slot attribute. -/
theorem connectedCallback_overwrites_empty_name :
    emptyNameStep.name = some "" ∧
      connectedCallback emptyNameStep =
        Except.ok { emptyNameStep with name := some "application" } ∧
      connectedCallback emptyNameStep ≠ Except.ok emptyNameStep :=
  ⟨rfl, rfl, by decide⟩

/-- C9 (amended): at connect time a step whose name is unset or empty
takes its slot attribute as its name; if the name is unset or empty and
the slot attribute is also absent or empty, connecting throws the
configuration error; a step with a non-empty name is left unchanged. -/
theorem connectedCallback_spec (s : WizardStepEl) :
    (jsTruthy s.name = false → jsTruthy s.slotAttr = false →
      connectedCallback s =
        Except.error "Steps must have a unique slot attribute.")
    ∧ (jsTruthy s.name = false → jsTruthy s.slotAttr = true →
      connectedCallback s = Except.ok { s with name := s.slotAttr })
    ∧ (jsTruthy s.name = true → connectedCallback s = Except.ok s) := by
  refine ⟨?_, ?_, ?_⟩
  · intro h1 h2
    simp [connectedCallback, h1, h2]
  · intro h1 h2
    simp [connectedCallback, h1, h2]
  · intro h1
    simp [connectedCallback, h1]

/-- C9, witness: a step with no explicit name connected in the
"application" slot takes "application" as its name. -/
theorem connectedCallback_spec_witness :
    connectedCallback { baseWizardStep with slotAttr := some "application" } =
      Except.ok { baseWizardStep with
        slotAttr := some "application", name := some "application" } :=
  (connectedCallback_spec
      { baseWizardStep with slotAttr := some "application" }).2.1 rfl rfl
